import Mathlib

/-!
Shallow embedding of the CoinEquityX virtual trading subsystem.

The data model (`VirtualHolding`, `VirtualTransaction`, `VirtualPortfolio`,
`TradeRequest`) follows `src/frontend-react/src/types.ts`.  Quantities,
prices and monetary amounts are embedded as rationals.  The client-side
code (trading modal gate, portfolio page valuation, chart data, API
wrapper) is translated from the TypeScript sources.  The server-side
ledger (`executeTrade`, the weighted-average buy / proportional-cost sell
accounting) is not part of the visible sources; it is modelled from the
specification, as marked on each such definition.
-/

/-- Asset classes, from the `assetType` union in `types.ts`. -/
inductive AssetType where
  | crypto
  | stock
  deriving DecidableEq, Repr

/-- Trade direction, from the `type` union in `types.ts`. -/
inductive TradeType where
  | buy
  | sell
  deriving DecidableEq, Repr

/-- A net open position, from `VirtualHolding` in `types.ts`.
`assetId` is kept as a string (the client always compares
`String(selectedAsset.id)` against `holding.assetId`). -/
structure VirtualHolding where
  assetType : AssetType
  assetId : String
  symbol : String
  name : String
  quantity : ℚ
  avgBuyPrice : ℚ
  totalCost : ℚ
  deriving DecidableEq, Repr

/-- An executed-trade record, from `VirtualTransaction` in `types.ts`. -/
structure VirtualTransaction where
  id : String
  timestamp : String
  type : TradeType
  assetType : AssetType
  symbol : String
  name : String
  quantity : ℚ
  price : ℚ
  total : ℚ
  balanceAfter : ℚ
  deriving DecidableEq, Repr

/-- The account snapshot, from `VirtualPortfolio` in `types.ts`. -/
structure VirtualPortfolio where
  balance : ℚ
  holdings : List VirtualHolding
  transactions : List VirtualTransaction
  deriving DecidableEq, Repr

/-- An order, from `TradeRequest` in `types.ts` (`assetId` stringified
by the client before submission). -/
structure TradeRequest where
  type : TradeType
  assetType : AssetType
  assetId : String
  symbol : String
  name : String
  quantity : ℚ
  price : ℚ
  deriving DecidableEq, Repr

/-- Identity data for the transaction the ledger appends (unique id and
timestamp are produced server-side; they are inputs of the model). -/
structure TxMeta where
  id : String
  timestamp : String
  deriving DecidableEq, Repr

/-- Error taxonomy of the ledger, from spec section 7. -/
inductive TradeError where
  | invalidQuantity
  | priceUnavailable
  | insufficientFunds
  | insufficientHoldings
  | assetNotHeld
  deriving DecidableEq, Repr

/-- Key match used everywhere a holding is looked up: the client compares
`h.assetId === String(selectedAsset.id) && h.assetType === assetType`
(`TradingModal.tsx`), and holdings are unique by `(assetType, assetId)`. -/
def matchKey (aty : AssetType) (id : String) (h : VirtualHolding) : Bool :=
  h.assetType == aty && h.assetId == id

/-- First holding for a composite key, mirroring `holdings.find(...)`. -/
def findHolding (hs : List VirtualHolding) (aty : AssetType) (id : String) :
    Option VirtualHolding :=
  hs.find? (matchKey aty id)

/-- Modelled from the spec: the buy path of the ledger's `executeTrade`
(section 4.1), whose server implementation is not among the visible
sources.  If a holding for the key exists it is updated in place by
weighted average; otherwise a new holding with `avgBuyPrice = price`
and `totalCost = quantity * price` is appended. -/
def applyBuy (aty : AssetType) (id sym nm : String) (q p : ℚ) :
    List VirtualHolding → List VirtualHolding
  | [] => [⟨aty, id, sym, nm, q, p, q * p⟩]
  | h :: t =>
    if matchKey aty id h then
      { h with
        quantity := h.quantity + q,
        avgBuyPrice := (h.quantity * h.avgBuyPrice + q * p) / (h.quantity + q),
        totalCost := h.totalCost + q * p } :: t
    else
      h :: applyBuy aty id sym nm q p t

/-- Modelled from the spec: the sell path's holding mutation (section
4.1).  The matched holding loses `q` units and `q * avgBuyPrice` of cost
basis; `avgBuyPrice` is unchanged; a holding whose quantity reaches zero
is deleted rather than kept at zero. -/
def sellUpdate (aty : AssetType) (id : String) (q : ℚ) :
    List VirtualHolding → List VirtualHolding
  | [] => []
  | h :: t =>
    if matchKey aty id h then
      if h.quantity - q = 0 then t
      else
        { h with
          quantity := h.quantity - q,
          totalCost := h.totalCost - q * h.avgBuyPrice } :: t
    else
      h :: sellUpdate aty id q t

/-- Modelled from the spec: the transaction snapshot appended by a
successful trade (section 4.1): `total = quantity * price` and
`balanceAfter` is the post-mutation balance. -/
def mkTx (m : TxMeta) (o : TradeRequest) (balAfter : ℚ) : VirtualTransaction :=
  ⟨m.id, m.timestamp, o.type, o.assetType, o.symbol, o.name,
    o.quantity, o.price, o.quantity * o.price, balAfter⟩

/-- Modelled from the spec: the ledger operation `executeTrade(account,
order)` (section 4.1), whose server implementation is not among the
visible sources.  Preconditions `quantity > 0` and `price > 0` are
checked first; buy fails with `insufficientFunds` when `cost > balance`;
sell fails with `assetNotHeld` when no holding matches and with
`insufficientHoldings` when `quantity > holding.quantity`.  On success
the balance mutation, the holding mutation and the transaction append
happen in one step and the updated account is returned; every error
path returns before any field of the account is touched. -/
def executeTrade (acct : VirtualPortfolio) (o : TradeRequest) (m : TxMeta) :
    Except TradeError VirtualPortfolio :=
  if o.quantity ≤ 0 then .error .invalidQuantity
  else if o.price ≤ 0 then .error .priceUnavailable
  else if o.type = .buy then
    if acct.balance < o.quantity * o.price then .error .insufficientFunds
    else
      Except.ok
        { balance := acct.balance - o.quantity * o.price,
          holdings :=
            applyBuy o.assetType o.assetId o.symbol o.name
              o.quantity o.price acct.holdings,
          transactions :=
            acct.transactions ++
              [mkTx m o (acct.balance - o.quantity * o.price)] }
  else
    match findHolding acct.holdings o.assetType o.assetId with
    | none => .error .assetNotHeld
    | some h =>
      if h.quantity < o.quantity then .error .insufficientHoldings
      else
        Except.ok
          { balance := acct.balance + o.quantity * o.price,
            holdings := sellUpdate o.assetType o.assetId o.quantity acct.holdings,
            transactions :=
              acct.transactions ++
                [mkTx m o (acct.balance + o.quantity * o.price)] }

/-- The account state observable after a call to the ledger: the updated
account on success, the untouched input account on rejection. -/
def ledgerPost (acct : VirtualPortfolio) (o : TradeRequest) (m : TxMeta) :
    VirtualPortfolio :=
  match executeTrade acct o m with
  | .ok a => a
  | .error _ => acct

/-- Whether the ledger rejected the order. -/
def tradeRejected (acct : VirtualPortfolio) (o : TradeRequest) (m : TxMeta) :
    Bool :=
  match executeTrade acct o m with
  | .ok _ => false
  | .error _ => true

/-- Whether the ledger accepted the order. -/
def tradeAccepted (acct : VirtualPortfolio) (o : TradeRequest) (m : TxMeta) :
    Bool :=
  match executeTrade acct o m with
  | .ok _ => true
  | .error _ => false

/-- Spec section 3 invariant: holdings are unique by `(assetType, assetId)`. -/
def uniqueKeys (hs : List VirtualHolding) : Prop :=
  hs.Pairwise fun a b => ¬(a.assetType = b.assetType ∧ a.assetId = b.assetId)

/-! ## Client-side code, translated from the TypeScript sources -/

/-- Modelled from the spec: `CurrencyConverter.convert` (`src/utils` is
not among the visible sources; section 6 specifies conversion of an
amount by the applicable rate of a rate table).  The callers only ever
convert USD amounts to INR, so the relevant table entry is a single
rate, taken as an argument. -/
def convert (amount : ℚ) (rate : ℚ) : ℚ :=
  amount * rate

/-- The wire response seen by the API client in `virtualTradingApi.ts`:
HTTP ok-flag, optional parsed `data` payload, optional `error` string. -/
structure HttpResponse where
  ok : Bool
  data : Option VirtualPortfolio
  error : Option String

/-- `executeTrade` from `virtualTradingApi.ts` (lines 14-30), given the
parsed response of the POST: when `res.ok` is false it throws
`data.error || 'Trade failed'`, otherwise it returns the payload. -/
def executeTradeClient (res : HttpResponse) : Except String (Option VirtualPortfolio) :=
  if res.ok then .ok res.data
  else .error (res.error.getD "Trade failed")

/-- Client caches relevant to a trade: the react-query portfolio cache
and the modal's error message state. -/
structure TradeUiState where
  cachedPortfolio : VirtualPortfolio
  errorMsg : String

/-- The `onError` handler of `tradeMutation` in `TradingModal.tsx`
(lines 88-90): it only sets the error message; no cache is written. -/
def onTradeError (s : TradeUiState) (msg : String) : TradeUiState :=
  { s with errorMsg := msg }

/-- The asset selected in the trading modal.  `feedPriceUSD` is the live
USD price the UI has for it (`selectedAsset.quote?.USD?.price` for
crypto, `stockQuoteData?.c` for stock); `none` stands for a feed that
has not answered, a missing field, or a zero price (all falsy in the
TypeScript `|| 0` chain). -/
structure SelectedAsset where
  id : String
  symbol : String
  name : String
  feedPriceUSD : Option ℚ

/-- The state of `TradingModal` that the validation gate reads:
the toggles, the selection, the quantity input (`none` for an empty
field), the USD to INR rate, and the props `balance` and `holdings`. -/
structure ModalState where
  tradeType : TradeType
  assetType : AssetType
  selectedAsset : Option SelectedAsset
  quantity : Option ℚ
  fxRate : ℚ
  balance : ℚ
  holdings : List VirtualHolding

/-- `currentPrice` memo of `TradingModal.tsx` (lines 94-104): 0 when no
asset is selected, otherwise the feed price (0 when unknown) converted
from USD to INR. -/
def currentPrice (s : ModalState) : ℚ :=
  match s.selectedAsset with
  | none => 0
  | some a => convert (a.feedPriceUSD.getD 0) s.fxRate

/-- `total` of `TradingModal.tsx` (line 107):
`(currentPrice || 0) * Number(quantity || 0)`. -/
def totalAmount (s : ModalState) : ℚ :=
  currentPrice s * (s.quantity.getD 0)

/-- `availableQuantity` memo of `TradingModal.tsx` (lines 110-118): for
a sell with a selected asset, the quantity of the holding matching
`(assetType, String(id))`, with 0 when there is none; 0 otherwise. -/
def availableQuantity (s : ModalState) : ℚ :=
  match s.tradeType, s.selectedAsset with
  | .sell, some a =>
    match findHolding s.holdings s.assetType a.id with
    | some h => h.quantity
    | none => 0
  | _, _ => 0

/-- `canTrade` memo of `TradingModal.tsx` (lines 150-154): false without
a selection, a quantity, a positive quantity, or a positive price; for
a buy it requires `total <= balance`, for a sell
`quantity <= availableQuantity`. -/
def canTrade (s : ModalState) : Bool :=
  match s.selectedAsset, s.quantity with
  | none, _ => false
  | some _, none => false
  | some _, some q =>
    if q ≤ 0 then false
    else if currentPrice s ≤ 0 then false
    else
      match s.tradeType with
      | .buy => totalAmount s ≤ s.balance
      | .sell => q ≤ availableQuantity s

/-- The distinguishable values of the `validationMessage` memo of
`TradingModal.tsx` (lines 156-166). -/
inductive TradeMsg where
  | empty
  | fetchingPrice
  | insufficientFunds
  | insufficientHoldings
  deriving DecidableEq, Repr

/-- `validationMessage` memo of `TradingModal.tsx` (lines 156-166),
abstracted to which message is produced. -/
def validationMessage (s : ModalState) : TradeMsg :=
  match s.selectedAsset, s.quantity with
  | none, _ => .empty
  | some _, none => .empty
  | some _, some q =>
    if currentPrice s ≤ 0 then .fetchingPrice
    else if s.tradeType = .buy ∧ s.balance < totalAmount s then .insufficientFunds
    else if s.tradeType = .sell ∧ availableQuantity s < q then .insufficientHoldings
    else .empty

/-- `handleTrade` of `TradingModal.tsx` (lines 175-186): returns early
(no submission) unless `canTrade` holds and an asset is selected;
otherwise submits the order built from the modal state, with
`price = currentPrice`. -/
def handleTrade (s : ModalState) : Option TradeRequest :=
  match s.selectedAsset with
  | none => none
  | some a =>
    if canTrade s then
      some
        { type := s.tradeType, assetType := s.assetType, assetId := a.id,
          symbol := a.symbol, name := a.name,
          quantity := s.quantity.getD 0, price := currentPrice s }
    else none

/-! ## Portfolio page valuation, from `VirtualTradingPage.tsx` -/

/-- The price data the portfolio page reads: crypto listings keyed by
stringified coin id, stock quotes keyed by symbol (both in USD, `none`
for an asset the feed has not priced or priced falsy), and the USD to
INR rate. -/
structure PriceEnv where
  cryptoPrice : String → Option ℚ
  stockQuote : String → Option ℚ
  usdToInr : ℚ

/-- The feed price the page finds for a holding (`coin?.quote?.USD?.price`
for crypto, `stockQuotes?.[symbol]?.c` for stock). -/
def feedPrice (env : PriceEnv) (h : VirtualHolding) : Option ℚ :=
  match h.assetType with
  | .crypto => env.cryptoPrice h.assetId
  | .stock => env.stockQuote h.symbol

/-- `currentPriceINR` as computed per holding on the page
(`VirtualTradingPage.tsx` lines 85-99): 0 unless the feed has a truthy
price, in which case that price converted to INR. -/
def currentPriceINR (env : PriceEnv) (h : VirtualHolding) : ℚ :=
  match feedPrice env h with
  | none => 0
  | some p => if p = 0 then 0 else convert p env.usdToInr

/-- One holding's contribution `currentPriceINR * holding.quantity` to
the aggregate (`VirtualTradingPage.tsx` line 101). -/
def holdingContribution (env : PriceEnv) (h : VirtualHolding) : ℚ :=
  currentPriceINR env h * h.quantity

/-- `holdingsValue` memo (`VirtualTradingPage.tsx` lines 85-103): the
reduce over holdings starting from 0. -/
def holdingsValue (env : PriceEnv) (hs : List VirtualHolding) : ℚ :=
  hs.foldl (fun sum h => sum + holdingContribution env h) 0

/-- `totalValue` (`VirtualTradingPage.tsx` line 105). -/
def totalValue (env : PriceEnv) (acct : VirtualPortfolio) : ℚ :=
  acct.balance + holdingsValue env acct.holdings

/-- `totalPnL` (`VirtualTradingPage.tsx` line 106); the initial balance
is the literal 1,000,000. -/
def totalPnL (env : PriceEnv) (acct : VirtualPortfolio) : ℚ :=
  totalValue env acct - 1000000

/-- `pnlPercent` (`VirtualTradingPage.tsx` line 107). -/
def pnlPercent (env : PriceEnv) (acct : VirtualPortfolio) : ℚ :=
  totalPnL env acct / 1000000 * 100

/-- Per-holding unrealized P&L of the holdings table
(`VirtualTradingPage.tsx` line 245): `currentValue - totalCost`. -/
def unrealizedPnL (env : PriceEnv) (h : VirtualHolding) : ℚ :=
  holdingContribution env h - h.totalCost

/-- `pnlPct` of the holdings table (`VirtualTradingPage.tsx` line 246):
`totalCost > 0 ? (pnl / totalCost) * 100 : 0`. -/
def pnlPct (env : PriceEnv) (h : VirtualHolding) : ℚ :=
  if 0 < h.totalCost then unrealizedPnL env h / h.totalCost * 100 else 0

/-- The spec's wording for the per-holding percentage (section 4.3):
`pnlPercent = pnl / totalCost * 100`, undefined when `totalCost = 0`.
Stated as an `Option` so that the undefined case is distinguishable;
kept for comparison against the implementation's `pnlPct`. -/
def pnlPercentSpec (pnl totalCost : ℚ) : Option ℚ :=
  if totalCost = 0 then none else some (pnl / totalCost * 100)

/-- One slice of the distribution chart. -/
structure ChartEntry where
  name : String
  fullName : String
  value : ℚ
  deriving DecidableEq, Repr

/-- `chartData` of `pages/VirtualTradingPage.tsx` (lines 115-119): every
holding becomes a slice whose value is its `totalCost`; nothing is
filtered and no live price is consulted. -/
def chartDataByCost (acct : VirtualPortfolio) : List (String × ℚ) :=
  acct.holdings.map fun h => (h.symbol, h.totalCost)

/-- `chartData` of the updated page variant stored alongside `types.ts`
(lines 240-255 of that file): every holding becomes a slice valued at
`currentPriceINR * quantity`, and slices with value `> 0` are kept. -/
def chartDataByValue (env : PriceEnv) (acct : VirtualPortfolio) : List ChartEntry :=
  (acct.holdings.map fun h =>
    ({ name := h.symbol, fullName := h.name,
       value := holdingContribution env h } : ChartEntry)).filter
    fun d => 0 < d.value

/-- The percentage shares rendered by `PortfolioChart` for that chart
data: each `value / total * 100` with `total` the sum of the values. -/
def chartShares (env : PriceEnv) (acct : VirtualPortfolio) : List ℚ :=
  let l := chartDataByValue env acct
  let total := (l.map ChartEntry.value).sum
  l.map fun d => d.value / total * 100

/-! ## Portfolio fetch fallback, from `VirtualTradingPage.tsx` -/

/-- `ApiResponse` envelope from `types.ts`: the payload is optional. -/
structure ApiResponse (α : Type) where
  data : Option α

/-- The portfolio the page renders (`VirtualTradingPage.tsx` lines
55-59): `portfolioData?.data || { balance: 1000000, holdings: [],
transactions: [] }` — the initial account state whenever the query has
not resolved or the response carries no data payload. -/
def displayedPortfolio (resp : Option (ApiResponse VirtualPortfolio)) :
    VirtualPortfolio :=
  match resp with
  | none => ⟨1000000, [], []⟩
  | some r =>
    match r.data with
    | none => ⟨1000000, [], []⟩
    | some p => p

/-! ## Concrete sample states (the worked scenario of spec section 8
and small price environments used to evaluate the definitions) -/

/-- Fresh account with the fixed initial balance. -/
def acct0 : VirtualPortfolio := ⟨1000000, [], []⟩

/-- Buy 2 units of asset X at price 100. -/
def buyX1 : TradeRequest := ⟨.buy, .crypto, "X", "X", "XCoin", 2, 100⟩

/-- Buy 2 more units of asset X at price 200. -/
def buyX2 : TradeRequest := ⟨.buy, .crypto, "X", "X", "XCoin", 2, 200⟩

/-- Sell 3 units of asset X at price 300. -/
def sellX : TradeRequest := ⟨.sell, .crypto, "X", "X", "XCoin", 3, 300⟩

/-- An order with a non-positive quantity, which the ledger rejects. -/
def badOrder : TradeRequest := ⟨.buy, .crypto, "X", "X", "XCoin", 0, 100⟩

def meta1 : TxMeta := ⟨"t1", "2026-01-01T00:00:00Z"⟩

def meta2 : TxMeta := ⟨"t2", "2026-01-01T00:01:00Z"⟩

def meta3 : TxMeta := ⟨"t3", "2026-01-01T00:02:00Z"⟩

/-- A holding of 2 units of X bought at 50 (cost basis 100). -/
def holdX : VirtualHolding := ⟨.crypto, "X", "X", "XCoin", 2, 50, 100⟩

/-- A holding of 4 units of X at average price 150 (cost basis 600),
as after the two buys of the spec scenario. -/
def holdX4 : VirtualHolding := ⟨.crypto, "X", "X", "XCoin", 4, 150, 600⟩

/-- Account holding `holdX`. -/
def acctP : VirtualPortfolio := ⟨999900, [holdX], []⟩

/-- Account holding `holdX4`, mid-scenario. -/
def acctS : VirtualPortfolio := ⟨999400, [holdX4], []⟩

/-- A price environment in which no feed has answered. -/
def envNone : PriceEnv := ⟨fun _ => none, fun _ => none, 83⟩

/-- A price environment quoting every crypto at 50 USD, rate 1. -/
def envP : PriceEnv := ⟨fun _ => some 50, fun _ => none, 1⟩

/-- A holding with zero cost basis (quantity 1, average price 0). -/
def holdZ : VirtualHolding := ⟨.crypto, "9", "Z", "Zed", 1, 0, 0⟩

/-- A price environment quoting every crypto at 5 USD, rate 1. -/
def envZ : PriceEnv := ⟨fun _ => some 5, fun _ => none, 1⟩

/-- A selected asset with a live USD price of 10. -/
def assetX : SelectedAsset := ⟨"X", "X", "XCoin", some 10⟩

/-- A selected asset whose price feed has not answered. -/
def assetNoPrice : SelectedAsset := ⟨"X", "X", "XCoin", none⟩

/-- Modal state for a well-formed buy: asset X, quantity 2, rate 1. -/
def sBuy : ModalState := ⟨.buy, .crypto, some assetX, some 2, 1, 1000000, []⟩

/-- Modal state identical to `sBuy` but with an unknown price. -/
def sBad : ModalState := ⟨.buy, .crypto, some assetNoPrice, some 2, 1, 1000000, []⟩

/-- Modal state for a sell of 3 units of X out of the 4 held. -/
def sSell : ModalState := ⟨.sell, .crypto, some assetX, some 3, 1, 0, [holdX4]⟩

/-- The order `handleTrade` submits from `sBuy`. -/
def reqBuy : TradeRequest := ⟨.buy, .crypto, "X", "X", "XCoin", 2, 10⟩

/-- Modal state like `sBuy` but with only 5 of balance. -/
def sBuyPoor : ModalState := ⟨.buy, .crypto, some assetX, some 2, 1, 5, []⟩

/-- Modal state trying to sell 5 units of X when only 4 are held. -/
def sSellMore : ModalState := ⟨.sell, .crypto, some assetX, some 5, 1, 0, [holdX4]⟩

/-- A failed HTTP trade response carrying an error string. -/
def failRes : HttpResponse := ⟨false, none, some "Insufficient funds"⟩

/-- Client UI state caching the fresh account. -/
def uiState0 : TradeUiState := ⟨acct0, ""⟩

/-- A portfolio response without a data payload. -/
def respNoData : ApiResponse VirtualPortfolio := ⟨none⟩

/-! ## Helper lemmas -/

theorem matchKey_iff (aty : AssetType) (id : String) (h : VirtualHolding) :
    matchKey aty id h = true ↔ h.assetType = aty ∧ h.assetId = id := by
  simp [matchKey]

theorem findHolding_applyBuy_of_none (aty : AssetType) (id sym nm : String)
    (q p : ℚ) (hs : List VirtualHolding)
    (hf : findHolding hs aty id = none) :
    findHolding (applyBuy aty id sym nm q p hs) aty id =
      some ⟨aty, id, sym, nm, q, p, q * p⟩ := by
  induction hs with
  | nil =>
    simp [applyBuy, findHolding, List.find?, matchKey]
  | cons h t ih =>
    unfold findHolding at hf ⊢
    cases hm : matchKey aty id h with
    | true =>
      rw [List.find?_cons_of_pos _ hm] at hf
      exact absurd hf (by simp)
    | false =>
      rw [List.find?_cons_of_neg _ (by simp [hm])] at hf
      simp only [applyBuy, hm, Bool.false_eq_true, if_false]
      rw [List.find?_cons_of_neg _ (by simp [hm])]
      exact ih hf

theorem findHolding_applyBuy_of_some (aty : AssetType) (id sym nm : String)
    (q p : ℚ) (hs : List VirtualHolding) (h : VirtualHolding)
    (hf : findHolding hs aty id = some h) :
    findHolding (applyBuy aty id sym nm q p hs) aty id =
      some { h with
        quantity := h.quantity + q,
        avgBuyPrice := (h.quantity * h.avgBuyPrice + q * p) / (h.quantity + q),
        totalCost := h.totalCost + q * p } := by
  induction hs with
  | nil => simp [findHolding] at hf
  | cons h1 t ih =>
    unfold findHolding at hf ⊢
    cases hm : matchKey aty id h1 with
    | true =>
      rw [List.find?_cons_of_pos _ hm] at hf
      injection hf with hf
      subst hf
      simp only [applyBuy, hm, if_true]
      exact List.find?_cons_of_pos _ hm
    | false =>
      rw [List.find?_cons_of_neg _ (by simp [hm])] at hf
      simp only [applyBuy, hm, Bool.false_eq_true, if_false]
      rw [List.find?_cons_of_neg _ (by simp [hm])]
      exact ih hf

theorem findHolding_sellUpdate_partial (aty : AssetType) (id : String)
    (q : ℚ) (hs : List VirtualHolding) (h : VirtualHolding)
    (hf : findHolding hs aty id = some h) (hne : h.quantity - q ≠ 0) :
    findHolding (sellUpdate aty id q hs) aty id =
      some { h with
        quantity := h.quantity - q,
        totalCost := h.totalCost - q * h.avgBuyPrice } := by
  induction hs with
  | nil => simp [findHolding] at hf
  | cons h1 t ih =>
    unfold findHolding at hf ⊢
    cases hm : matchKey aty id h1 with
    | true =>
      rw [List.find?_cons_of_pos _ hm] at hf
      injection hf with hf
      subst hf
      simp only [sellUpdate, hm, if_true, hne, if_false]
      exact List.find?_cons_of_pos _ hm
    | false =>
      rw [List.find?_cons_of_neg _ (by simp [hm])] at hf
      simp only [sellUpdate, hm, Bool.false_eq_true, if_false]
      rw [List.find?_cons_of_neg _ (by simp [hm])]
      exact ih hf

theorem findHolding_sellUpdate_full (aty : AssetType) (id : String)
    (q : ℚ) (hs : List VirtualHolding) (h : VirtualHolding)
    (hu : uniqueKeys hs)
    (hf : findHolding hs aty id = some h) (hz : h.quantity - q = 0) :
    findHolding (sellUpdate aty id q hs) aty id = none := by
  induction hs with
  | nil => simp [findHolding] at hf
  | cons h1 t ih =>
    rw [uniqueKeys, List.pairwise_cons] at hu
    obtain ⟨hrel, hut⟩ := hu
    unfold findHolding at hf ⊢
    cases hm : matchKey aty id h1 with
    | true =>
      rw [List.find?_cons_of_pos _ hm] at hf
      injection hf with hf
      subst hf
      simp only [sellUpdate, hm, if_true, hz, if_true]
      rw [List.find?_eq_none]
      intro x hx hpx
      have k1 := (matchKey_iff aty id h1).mp hm
      have kx := (matchKey_iff aty id x).mp (by simpa using hpx)
      exact hrel x hx ⟨k1.1.trans kx.1.symm, k1.2.trans kx.2.symm⟩
    | false =>
      rw [List.find?_cons_of_neg _ (by simp [hm])] at hf
      simp only [sellUpdate, hm, Bool.false_eq_true, if_false]
      rw [List.find?_cons_of_neg _ (by simp [hm])]
      exact ih (hut.imp fun a => a) hf

theorem holdingsValue_eq_sum (env : PriceEnv) (hs : List VirtualHolding) :
    holdingsValue env hs = (hs.map (holdingContribution env)).sum := by
  have key : ∀ (l : List VirtualHolding) (a : ℚ),
      l.foldl (fun sum h => sum + holdingContribution env h) a =
        a + (l.map (holdingContribution env)).sum := by
    intro l
    induction l with
    | nil => intro a; simp
    | cons h t ih =>
      intro a
      simp only [List.foldl_cons, List.map_cons, List.sum_cons, ih]
      ring
  simpa using key hs 0

theorem sum_map_div_mul (l : List ℚ) (t : ℚ) :
    (l.map fun v => v / t * 100).sum = l.sum / t * 100 := by
  induction l with
  | nil => simp
  | cons a l2 ih =>
    simp only [List.map_cons, List.sum_cons, ih]
    ring

theorem executeTrade_buy_eq (acct : VirtualPortfolio) (o : TradeRequest)
    (m : TxMeta) (hbuy : o.type = .buy) (hq : 0 < o.quantity)
    (hp : 0 < o.price) (hb : o.quantity * o.price ≤ acct.balance) :
    executeTrade acct o m =
      Except.ok
        { balance := acct.balance - o.quantity * o.price,
          holdings :=
            applyBuy o.assetType o.assetId o.symbol o.name
              o.quantity o.price acct.holdings,
          transactions :=
            acct.transactions ++
              [mkTx m o (acct.balance - o.quantity * o.price)] } := by
  unfold executeTrade
  rw [if_neg (not_le.mpr hq), if_neg (not_le.mpr hp), if_pos hbuy,
    if_neg (not_lt.mpr hb)]

theorem executeTrade_sell_eq (acct : VirtualPortfolio) (o : TradeRequest)
    (m : TxMeta) (h : VirtualHolding) (hsell : o.type = .sell)
    (hq : 0 < o.quantity) (hp : 0 < o.price)
    (hfound : findHolding acct.holdings o.assetType o.assetId = some h)
    (hle : o.quantity ≤ h.quantity) :
    executeTrade acct o m =
      Except.ok
        { balance := acct.balance + o.quantity * o.price,
          holdings := sellUpdate o.assetType o.assetId o.quantity acct.holdings,
          transactions :=
            acct.transactions ++
              [mkTx m o (acct.balance + o.quantity * o.price)] } := by
  unfold executeTrade
  rw [if_neg (not_le.mpr hq), if_neg (not_le.mpr hp),
    if_neg (by simp [hsell])]
  simp only [hfound]
  rw [if_neg (not_lt.mpr hle)]

theorem ledgerPost_of_ok (acct : VirtualPortfolio) (o : TradeRequest)
    (m : TxMeta) (a2 : VirtualPortfolio)
    (h : executeTrade acct o m = Except.ok a2) :
    ledgerPost acct o m = a2 := by
  unfold ledgerPost
  rw [h]

theorem canTrade_price_pos (s : ModalState) (h : canTrade s = true) :
    0 < currentPrice s := by
  unfold canTrade at h
  rcases hsa : s.selectedAsset with _ | a <;> rw [hsa] at h
  · simp at h
  · rcases hq : s.quantity with _ | q <;> rw [hq] at h
    · simp at h
    · by_cases h1 : q ≤ 0
      · simp [h1] at h
      · by_cases h2 : currentPrice s ≤ 0
        · simp [h1, h2] at h
        · exact lt_of_not_le h2

/-! ## Claim theorems -/

/-- C1: for every accepted buy, the ledger updates an existing holding
for the asset by weighted average (`newQuantity = oldQuantity + quantity`,
`newAvgBuyPrice = (oldQuantity * oldAvgBuyPrice + quantity * price) /
newQuantity`, `newTotalCost = oldTotalCost + quantity * price`), creates
a fresh holding with `avgBuyPrice = price` and `totalCost = quantity *
price` when the asset is not yet held, and consequently two successive
buys of a fresh asset at prices p1 (qty q1) and p2 (qty q2) leave
`avgBuyPrice = (q1*p1 + q2*p2) / (q1 + q2)`. -/
theorem buy_weighted_average (acct : VirtualPortfolio) (o : TradeRequest)
    (m : TxMeta) (hbuy : o.type = .buy) (hq : 0 < o.quantity)
    (hp : 0 < o.price) (hb : o.quantity * o.price ≤ acct.balance) :
    tradeAccepted acct o m = true ∧
    (ledgerPost acct o m).balance = acct.balance - o.quantity * o.price ∧
    (∀ h, findHolding acct.holdings o.assetType o.assetId = some h →
      findHolding (ledgerPost acct o m).holdings o.assetType o.assetId =
        some { h with
          quantity := h.quantity + o.quantity,
          avgBuyPrice :=
            (h.quantity * h.avgBuyPrice + o.quantity * o.price) /
              (h.quantity + o.quantity),
          totalCost := h.totalCost + o.quantity * o.price }) ∧
    (findHolding acct.holdings o.assetType o.assetId = none →
      findHolding (ledgerPost acct o m).holdings o.assetType o.assetId =
        some ⟨o.assetType, o.assetId, o.symbol, o.name, o.quantity, o.price,
          o.quantity * o.price⟩) ∧
    (∀ (o2 : TradeRequest) (m2 : TxMeta),
      o2.type = .buy → o2.assetType = o.assetType → o2.assetId = o.assetId →
      0 < o2.quantity → 0 < o2.price →
      o2.quantity * o2.price ≤ (ledgerPost acct o m).balance →
      findHolding acct.holdings o.assetType o.assetId = none →
      findHolding (ledgerPost (ledgerPost acct o m) o2 m2).holdings
          o.assetType o.assetId =
        some ⟨o.assetType, o.assetId, o.symbol, o.name,
          o.quantity + o2.quantity,
          (o.quantity * o.price + o2.quantity * o2.price) /
            (o.quantity + o2.quantity),
          o.quantity * o.price + o2.quantity * o2.price⟩) := by
  have hE := executeTrade_buy_eq acct o m hbuy hq hp hb
  have hpost := ledgerPost_of_ok acct o m _ hE
  refine ⟨?_, ?_, ?_, ?_, ?_⟩
  · unfold tradeAccepted
    rw [hE]
  · rw [hpost]
  · intro h hf
    rw [hpost]
    exact findHolding_applyBuy_of_some _ _ _ _ _ _ _ h hf
  · intro hf
    rw [hpost]
    exact findHolding_applyBuy_of_none _ _ _ _ _ _ _ hf
  · intro o2 m2 hbuy2 haty2 hid2 hq2 hp2 hb2 hf
    have hfresh :
        findHolding (ledgerPost acct o m).holdings o.assetType o.assetId =
          some ⟨o.assetType, o.assetId, o.symbol, o.name, o.quantity, o.price,
            o.quantity * o.price⟩ := by
      rw [hpost]
      exact findHolding_applyBuy_of_none _ _ _ _ _ _ _ hf
    have hE2 := executeTrade_buy_eq (ledgerPost acct o m) o2 m2 hbuy2 hq2 hp2 hb2
    have hpost2 := ledgerPost_of_ok (ledgerPost acct o m) o2 m2 _ hE2
    rw [hpost2]
    show findHolding
        (applyBuy o2.assetType o2.assetId o2.symbol o2.name
          o2.quantity o2.price (ledgerPost acct o m).holdings)
        o.assetType o.assetId = _
    rw [haty2, hid2]
    exact findHolding_applyBuy_of_some o.assetType o.assetId o2.symbol
      o2.name o2.quantity o2.price (ledgerPost acct o m).holdings
      ⟨o.assetType, o.assetId, o.symbol, o.name, o.quantity, o.price,
        o.quantity * o.price⟩ hfresh

/-- Witness for C1: the spec scenario — from a fresh account, buy 2 X at
100 and then 2 X at 200; the resulting holding is 4 units at weighted
average (2*100 + 2*200)/(2+2) = 150 with cost basis 600. -/
theorem buy_weighted_average_witness :
    tradeAccepted acct0 buyX1 meta1 = true ∧
    (ledgerPost acct0 buyX1 meta1).balance = 999800 ∧
    findHolding (ledgerPost (ledgerPost acct0 buyX1 meta1) buyX2 meta2).holdings
        AssetType.crypto "X" =
      some ⟨AssetType.crypto, "X", "X", "XCoin", 4, 150, 600⟩ := by
  have h := buy_weighted_average acct0 buyX1 meta1 rfl
    (by norm_num [buyX1]) (by norm_num [buyX1]) (by norm_num [acct0, buyX1])
  refine ⟨h.1, ?_, ?_⟩
  · rw [h.2.1]
    norm_num [acct0, buyX1]
  · have h2 := h.2.2.2.2 buyX2 meta2 rfl rfl rfl
      (by norm_num [buyX2]) (by norm_num [buyX2])
      (by with_unfolding_all decide) rfl
    norm_num [buyX1, buyX2] at h2
    exact h2

/-- C2: for every accepted sell of quantity q from a holding h, the
balance grows by `q * price`, the holding keeps its `avgBuyPrice`, loses
q units of quantity and `q * avgBuyPrice` of cost basis (proportional
cost-basis reduction, not sale proceeds), and when q equals the held
quantity the holding is removed from `holdings` instead of being kept at
zero.  Holdings are assumed unique by key, the spec's stated data-model
invariant. -/
theorem sell_proportional_cost_basis (acct : VirtualPortfolio)
    (o : TradeRequest) (m : TxMeta) (h : VirtualHolding)
    (hsell : o.type = .sell) (hq : 0 < o.quantity) (hp : 0 < o.price)
    (hfound : findHolding acct.holdings o.assetType o.assetId = some h)
    (hle : o.quantity ≤ h.quantity) (hu : uniqueKeys acct.holdings) :
    tradeAccepted acct o m = true ∧
    (ledgerPost acct o m).balance = acct.balance + o.quantity * o.price ∧
    (o.quantity < h.quantity →
      findHolding (ledgerPost acct o m).holdings o.assetType o.assetId =
        some { h with
          quantity := h.quantity - o.quantity,
          totalCost := h.totalCost - o.quantity * h.avgBuyPrice }) ∧
    (o.quantity = h.quantity →
      findHolding (ledgerPost acct o m).holdings o.assetType o.assetId =
        none) := by
  have hE := executeTrade_sell_eq acct o m h hsell hq hp hfound hle
  have hpost := ledgerPost_of_ok acct o m _ hE
  refine ⟨?_, ?_, ?_, ?_⟩
  · unfold tradeAccepted
    rw [hE]
  · rw [hpost]
  · intro hlt
    rw [hpost]
    exact findHolding_sellUpdate_partial _ _ _ _ _ hfound
      (sub_ne_zero.mpr (ne_of_gt hlt))
  · intro heq
    rw [hpost]
    exact findHolding_sellUpdate_full _ _ _ _ _ hu hfound
      (by rw [heq, sub_self])

/-- Witness for C2: the spec scenario continued — holding 4 X at average
150 (cost 600) and balance 999,400, sell 3 at 300: balance becomes
1,000,300 and the holding becomes 1 unit, average still 150, cost 150.
Selling all 4 instead removes the holding. -/
theorem sell_proportional_cost_basis_witness :
    tradeAccepted acctS sellX meta3 = true ∧
    (ledgerPost acctS sellX meta3).balance = 1000300 ∧
    findHolding (ledgerPost acctS sellX meta3).holdings
        AssetType.crypto "X" =
      some ⟨AssetType.crypto, "X", "X", "XCoin", 1, 150, 150⟩ := by
  have h := sell_proportional_cost_basis acctS sellX meta3 holdX4 rfl
    (by norm_num [sellX]) (by norm_num [sellX]) (by with_unfolding_all rfl)
    (by norm_num [sellX, holdX4]) (by simp [uniqueKeys, acctS])
  refine ⟨h.1, ?_, ?_⟩
  · rw [h.2.1]
    norm_num [acctS, sellX]
  · have h2 := h.2.2.1 (by norm_num [sellX, holdX4])
    norm_num [sellX, holdX4] at h2
    exact h2

/-- C3: `executeTrade` is atomic — for every order the ledger rejects,
whatever the error kind, the observable balance, holdings and
transactions are exactly the pre-call ones; on the client, a response
with `ok = false` makes the API wrapper throw the reported error, and
the mutation's error handler leaves the cached portfolio untouched,
setting only the error message. -/
theorem executeTrade_atomic :
    (∀ (acct : VirtualPortfolio) (o : TradeRequest) (m : TxMeta),
      tradeRejected acct o m = true →
        (ledgerPost acct o m).balance = acct.balance ∧
        (ledgerPost acct o m).holdings = acct.holdings ∧
        (ledgerPost acct o m).transactions = acct.transactions) ∧
    (∀ res : HttpResponse, res.ok = false →
      executeTradeClient res = .error (res.error.getD "Trade failed")) ∧
    (∀ (s : TradeUiState) (msg : String),
      (onTradeError s msg).cachedPortfolio = s.cachedPortfolio ∧
      (onTradeError s msg).errorMsg = msg) := by
  refine ⟨?_, ?_, ?_⟩
  · intro acct o m hrej
    unfold tradeRejected at hrej
    unfold ledgerPost
    cases hE : executeTrade acct o m with
    | ok a => rw [hE] at hrej; simp at hrej
    | error e => exact ⟨rfl, rfl, rfl⟩
  · intro res h
    simp [executeTradeClient, h]
  · intro s msg
    exact ⟨rfl, rfl⟩

/-- Witness for C3: the zero-quantity order is rejected and leaves the
fresh account unchanged; a failed HTTP response surfaces its error
string; the error handler keeps the cached portfolio. -/
theorem executeTrade_atomic_witness :
    tradeRejected acct0 badOrder meta1 = true ∧
    (ledgerPost acct0 badOrder meta1).balance = acct0.balance ∧
    (ledgerPost acct0 badOrder meta1).holdings = acct0.holdings ∧
    (ledgerPost acct0 badOrder meta1).transactions = acct0.transactions ∧
    executeTradeClient failRes = .error "Insufficient funds" ∧
    (onTradeError uiState0 "Insufficient funds").cachedPortfolio =
      uiState0.cachedPortfolio := by
  have hrej : tradeRejected acct0 badOrder meta1 = true := by
    with_unfolding_all rfl
  have h := executeTrade_atomic
  refine ⟨hrej, (h.1 acct0 badOrder meta1 hrej).1,
    (h.1 acct0 badOrder meta1 hrej).2.1,
    (h.1 acct0 badOrder meta1 hrej).2.2, ?_, (h.2.2 uiState0 _).1⟩
  exact h.2.1 failRes rfl

/-- C4: with an asset selected, a positive entered quantity and a
positive live price, the buy gate accepts exactly when
`quantity * livePrice <= balance`, and the validation message reports
insufficient funds exactly when `quantity * livePrice > balance`. -/
theorem canTrade_buy_insufficient_funds (s : ModalState)
    (a : SelectedAsset) (q : ℚ)
    (hsel : s.selectedAsset = some a) (hqty : s.quantity = some q)
    (hbuy : s.tradeType = .buy) (hqpos : 0 < q)
    (hp : 0 < currentPrice s) :
    (canTrade s = true ↔ q * currentPrice s ≤ s.balance) ∧
    (validationMessage s = .insufficientFunds ↔
      s.balance < q * currentPrice s) := by
  have hq0 : ¬ q ≤ 0 := not_le.mpr hqpos
  have hp0 : ¬ currentPrice s ≤ 0 := not_le.mpr hp
  constructor
  · simp only [canTrade, hsel, hqty, hq0, hp0, if_false, hbuy,
      totalAmount, Option.getD_some, decide_eq_true_eq]
    rw [mul_comm]
  · simp only [validationMessage, hsel, hqty, hbuy, totalAmount,
      Option.getD_some]
    rw [if_neg hp0]
    by_cases hc : s.balance < currentPrice s * q
    · rw [if_pos ⟨trivial, hc⟩]
      exact iff_of_true rfl (by rwa [mul_comm] at hc)
    · rw [if_neg fun hx => hc hx.2]
      rw [if_neg fun hx => TradeType.noConfusion hx.1]
      refine iff_of_false (by simp) fun hx => hc ?_
      rwa [mul_comm] at hx

/-- Witness for C4: with price 10 and quantity 2, the buy gate accepts
on a balance of 1,000,000 and the message reports insufficient funds on
a balance of 5. -/
theorem canTrade_buy_insufficient_funds_witness :
    canTrade sBuy = true ∧
    validationMessage sBuyPoor = TradeMsg.insufficientFunds := by
  have hcp : currentPrice sBuy = 10 := by with_unfolding_all rfl
  have hcp2 : currentPrice sBuyPoor = 10 := by with_unfolding_all rfl
  have h1 := canTrade_buy_insufficient_funds sBuy assetX 2 rfl rfl rfl
    (by norm_num) (by rw [hcp]; norm_num)
  have h2 := canTrade_buy_insufficient_funds sBuyPoor assetX 2 rfl rfl rfl
    (by norm_num) (by rw [hcp2]; norm_num)
  refine ⟨h1.1.mpr ?_, h2.2.mpr ?_⟩
  · rw [hcp]
    norm_num [sBuy]
  · rw [hcp2]
    norm_num [sBuyPoor]

/-- C5: with an asset selected, a positive entered quantity and a
positive live price, the sell gate accepts exactly when the quantity is
at most the held quantity — the quantity of the holding matching
`(assetType, assetId)`, taken as 0 when there is none — and the
validation message reports insufficient holdings exactly when the
quantity exceeds it. -/
theorem canTrade_sell_insufficient_holdings (s : ModalState)
    (a : SelectedAsset) (q : ℚ)
    (hsel : s.selectedAsset = some a) (hqty : s.quantity = some q)
    (hsell : s.tradeType = .sell) (hqpos : 0 < q)
    (hp : 0 < currentPrice s) :
    (canTrade s = true ↔
      q ≤ ((findHolding s.holdings s.assetType a.id).map
        VirtualHolding.quantity).getD 0) ∧
    (validationMessage s = .insufficientHoldings ↔
      ((findHolding s.holdings s.assetType a.id).map
        VirtualHolding.quantity).getD 0 < q) := by
  have hq0 : ¬ q ≤ 0 := not_le.mpr hqpos
  have hp0 : ¬ currentPrice s ≤ 0 := not_le.mpr hp
  have havail : availableQuantity s =
      ((findHolding s.holdings s.assetType a.id).map
        VirtualHolding.quantity).getD 0 := by
    simp only [availableQuantity, hsell, hsel]
    rcases hF : findHolding s.holdings s.assetType a.id with _ | h <;>
      simp [hF]
  constructor
  · simp only [canTrade, hsel, hqty, hq0, hp0, if_false, hsell,
      decide_eq_true_eq]
    rw [havail]
  · simp only [validationMessage, hsel, hqty]
    rw [if_neg hp0]
    rw [if_neg fun hx => TradeType.noConfusion (hsell ▸ hx.1)]
    by_cases hc : availableQuantity s < q
    · rw [if_pos ⟨hsell, hc⟩]
      exact iff_of_true rfl (havail ▸ hc)
    · rw [if_neg fun hx => hc hx.2]
      exact iff_of_false (by simp) fun hx => hc (havail ▸ hx)

/-- Witness for C5: holding 4 units of X, a sell of 3 is accepted and a
sell of 5 triggers the insufficient-holdings message. -/
theorem canTrade_sell_insufficient_holdings_witness :
    canTrade sSell = true ∧
    validationMessage sSellMore = TradeMsg.insufficientHoldings := by
  have hcp : currentPrice sSell = 10 := by with_unfolding_all rfl
  have hcp2 : currentPrice sSellMore = 10 := by with_unfolding_all rfl
  have h1 := canTrade_sell_insufficient_holdings sSell assetX 3 rfl rfl rfl
    (by norm_num) (by rw [hcp]; norm_num)
  have h2 := canTrade_sell_insufficient_holdings sSellMore assetX 5 rfl rfl
    rfl (by norm_num) (by rw [hcp2]; norm_num)
  have hfind : findHolding sSell.holdings sSell.assetType assetX.id =
      some holdX4 := by with_unfolding_all rfl
  have hfind2 : findHolding sSellMore.holdings sSellMore.assetType
      assetX.id = some holdX4 := by with_unfolding_all rfl
  refine ⟨h1.1.mpr ?_, h2.2.mpr ?_⟩
  · rw [hfind]
    norm_num [holdX4]
  · rw [hfind2]
    norm_num [holdX4]

/-- C6: a trade is never submitted at a non-positive or unknown price:
whenever the computed live price is at most 0 the gate is closed and
`handleTrade` submits nothing; an unknown feed price yields a computed
price of exactly 0 (hence is gated); and every order `handleTrade` does
submit carries a strictly positive price. -/
theorem no_trade_at_nonpositive_price (s : ModalState) :
    (currentPrice s ≤ 0 → canTrade s = false ∧ handleTrade s = none) ∧
    (∀ a, s.selectedAsset = some a → a.feedPriceUSD = none →
      currentPrice s = 0) ∧
    (∀ r, handleTrade s = some r → 0 < r.price) := by
  refine ⟨?_, ?_, ?_⟩
  · intro hp
    have hct : canTrade s = false := by
      cases hcs : canTrade s
      · rfl
      · exact absurd (canTrade_price_pos s hcs) (not_lt.mpr hp)
    refine ⟨hct, ?_⟩
    unfold handleTrade
    rcases hsa : s.selectedAsset with _ | a
    · rfl
    · simp [hct]
  · intro a hsa hfeed
    simp [currentPrice, hsa, hfeed, convert]
  · intro r hr
    unfold handleTrade at hr
    rcases hsa : s.selectedAsset with _ | a
    · rw [hsa] at hr
      exact absurd hr (by simp)
    · rw [hsa] at hr
      cases hct : canTrade s with
      | false =>
        simp [hct] at hr
      | true =>
        simp only [hct, if_true] at hr
        rw [Option.some.injEq] at hr
        rw [← hr]
        exact canTrade_price_pos s hct

/-- Witness for C6: with an unanswered feed the computed price is 0, the
gate is closed and nothing is submitted; the order submitted from the
well-priced state `sBuy` carries price 10 > 0. -/
theorem no_trade_at_nonpositive_price_witness :
    currentPrice sBad = 0 ∧ canTrade sBad = false ∧
    handleTrade sBad = none ∧ handleTrade sBuy = some reqBuy ∧
    0 < reqBuy.price := by
  have h := no_trade_at_nonpositive_price sBad
  have hz := h.2.1 assetNoPrice rfl rfl
  have h1 := h.1 (le_of_eq hz)
  have hsome : handleTrade sBuy = some reqBuy := by with_unfolding_all rfl
  exact ⟨hz, h1.1, h1.2, hsome,
    (no_trade_at_nonpositive_price sBuy).2.2 reqBuy hsome⟩

/-- C7: the page's portfolio summary satisfies `totalValue = balance +
Σ currentValue(h)` over the holdings, `totalPnL = totalValue −
1,000,000` and `pnlPercent = totalPnL / 1,000,000 × 100`, and a holding
whose live price is unavailable (feed answered nothing — a state the
model keeps distinguishable from a genuine zero price) contributes
exactly 0 to the sum. -/
theorem portfolio_summary (env : PriceEnv) (acct : VirtualPortfolio) :
    totalValue env acct =
      acct.balance + (acct.holdings.map (holdingContribution env)).sum ∧
    totalPnL env acct = totalValue env acct - 1000000 ∧
    pnlPercent env acct = totalPnL env acct / 1000000 * 100 ∧
    (∀ h, feedPrice env h = none → holdingContribution env h = 0) := by
  refine ⟨?_, rfl, rfl, ?_⟩
  · unfold totalValue
    rw [holdingsValue_eq_sum]
  · intro h hf
    simp [holdingContribution, currentPriceINR, hf]

/-- Witness for C7: in a price environment where no feed has answered,
the holding of 2 X contributes exactly 0, and the totals follow the
stated formulas on the concrete account. -/
theorem portfolio_summary_witness :
    feedPrice envNone holdX = none ∧
    holdingContribution envNone holdX = 0 ∧
    totalValue envNone acctP = 999900 := by
  have h := portfolio_summary envNone acctP
  refine ⟨rfl, h.2.2.2 holdX rfl, ?_⟩
  rw [h.1]
  have hz := h.2.2.2 holdX rfl
  simp [acctP, hz]

/-- C8 counterexample: the distribution of
`pages/VirtualTradingPage.tsx` charts every holding at its `totalCost`
without consulting live prices: the account holding 2 X (cost basis
100) in an environment where no price is available produces the slice
("X", 100) even though that holding's current value is 0, so the claim
that the distribution contains entries exactly for the holdings with
`currentValue > 0` fails on this page. -/
theorem chartDataByCost_includes_unpriced :
    chartDataByCost acctP = [("X", 100)] ∧
    holdX ∈ acctP.holdings ∧
    holdingContribution envNone holdX = 0 := by
  refine ⟨by with_unfolding_all rfl, by simp [acctP], ?_⟩
  with_unfolding_all rfl

/-- C8 (amended): in the updated page variant stored alongside
`types.ts`, the distribution keeps exactly the holdings with
`currentValue > 0` (each as a `(symbol, value)` slice), holdings with
unavailable pricing are excluded rather than shown as zero-share
entries, and the rendered percentage shares sum to exactly 100 whenever
the chart is nonempty. -/
theorem chartDataByValue_distribution (env : PriceEnv)
    (acct : VirtualPortfolio) :
    (∀ e ∈ chartDataByValue env acct, 0 < e.value) ∧
    (∀ h ∈ acct.holdings, 0 < holdingContribution env h →
      ({ name := h.symbol, fullName := h.name,
         value := holdingContribution env h } : ChartEntry) ∈
        chartDataByValue env acct) ∧
    (∀ h ∈ acct.holdings, feedPrice env h = none →
      ({ name := h.symbol, fullName := h.name,
         value := holdingContribution env h } : ChartEntry) ∉
        chartDataByValue env acct) ∧
    (chartDataByValue env acct ≠ [] →
      (chartShares env acct).sum = 100) := by
  have hpos : ∀ e ∈ chartDataByValue env acct, 0 < e.value := by
    intro e he
    unfold chartDataByValue at he
    rw [List.mem_filter] at he
    simpa using he.2
  refine ⟨hpos, ?_, ?_, ?_⟩
  · intro h hmem hval
    unfold chartDataByValue
    rw [List.mem_filter]
    exact ⟨List.mem_map_of_mem _ hmem, by simpa using hval⟩
  · intro h hmem hfeed hin
    have hzero : holdingContribution env h = 0 := by
      simp [holdingContribution, currentPriceINR, hfeed]
    have := hpos _ hin
    rw [hzero] at this
    exact absurd this (lt_irrefl 0)
  · intro hne
    have hmapne : (chartDataByValue env acct).map ChartEntry.value ≠ [] := by
      simpa using hne
    have hmappos :
        ∀ x ∈ (chartDataByValue env acct).map ChartEntry.value, 0 < x := by
      intro x hx
      rcases List.mem_map.mp hx with ⟨e, he, rfl⟩
      exact hpos e he
    have htot :
        0 < ((chartDataByValue env acct).map ChartEntry.value).sum :=
      List.sum_pos _ hmappos hmapne
    unfold chartShares
    rw [show ((chartDataByValue env acct).map fun d =>
        d.value / ((chartDataByValue env acct).map ChartEntry.value).sum
          * 100) =
      (((chartDataByValue env acct).map ChartEntry.value).map fun v =>
        v / ((chartDataByValue env acct).map ChartEntry.value).sum * 100)
      from by rw [List.map_map]; rfl]
    rw [sum_map_div_mul]
    rw [div_self (ne_of_gt htot), one_mul]

/-- Witness for C8 (amended): with X priced, the chart is nonempty and
its shares sum to exactly 100. -/
theorem chartDataByValue_distribution_witness :
    chartDataByValue envP acctP ≠ [] ∧
    (chartShares envP acctP).sum = 100 := by
  have hne : chartDataByValue envP acctP ≠ [] := by
    with_unfolding_all decide
  exact ⟨hne, (chartDataByValue_distribution envP acctP).2.2.2 hne⟩

/-- C9 counterexample: for a holding with `totalCost = 0` the page
computes `pnlPct = 0` — a defined, rendered value — while the spec's
wording makes the percentage undefined there; at the concrete holding
`holdZ` (quantity 1, cost basis 0, current price 5) the code shows 0
although the spec-worded function returns nothing. -/
theorem pnlPct_zero_cost_divergence :
    unrealizedPnL envZ holdZ = 5 ∧
    pnlPct envZ holdZ = 0 ∧
    pnlPercentSpec (unrealizedPnL envZ holdZ) holdZ.totalCost = none := by
  refine ⟨by with_unfolding_all rfl, by with_unfolding_all rfl, ?_⟩
  with_unfolding_all rfl

/-- C9 (amended): for every holding, `unrealizedPnL = currentValue −
totalCost`; when `totalCost > 0` the page computes `pnlPercent = pnl /
totalCost × 100`; when `totalCost ≤ 0` no division is performed and the
page renders 0 (rather than leaving the percentage undefined). -/
theorem holding_pnl_formulas (env : PriceEnv) (h : VirtualHolding) :
    unrealizedPnL env h = holdingContribution env h - h.totalCost ∧
    (0 < h.totalCost →
      pnlPct env h =
        (holdingContribution env h - h.totalCost) / h.totalCost * 100) ∧
    (h.totalCost ≤ 0 → pnlPct env h = 0) := by
  refine ⟨rfl, ?_, ?_⟩
  · intro hpos
    unfold pnlPct
    rw [if_pos hpos]
    rfl
  · intro hle
    unfold pnlPct
    rw [if_neg (not_lt.mpr hle)]

/-- Witness for C9 (amended): the 2-X holding (cost basis 100) gets the
quotient formula; the zero-cost holding gets 0. -/
theorem holding_pnl_formulas_witness :
    (0:ℚ) < holdX.totalCost ∧
    pnlPct envP holdX =
      (holdingContribution envP holdX - holdX.totalCost) /
        holdX.totalCost * 100 ∧
    pnlPct envZ holdZ = 0 := by
  refine ⟨by norm_num [holdX], ?_, ?_⟩
  · exact (holding_pnl_formulas envP holdX).2.1 (by norm_num [holdX])
  · exact (holding_pnl_formulas envZ holdZ).2.2 (by norm_num [holdZ])

/-- C10: when the portfolio endpoint's response carries no data payload
(or the query has not resolved), the page renders the initial account —
balance 1,000,000, no holdings, no transactions. -/
theorem portfolio_missing_data_fallback :
    (displayedPortfolio none).balance = 1000000 ∧
    (displayedPortfolio none).holdings = [] ∧
    (displayedPortfolio none).transactions = [] ∧
    (∀ r : ApiResponse VirtualPortfolio, r.data = none →
      (displayedPortfolio (some r)).balance = 1000000 ∧
      (displayedPortfolio (some r)).holdings = [] ∧
      (displayedPortfolio (some r)).transactions = []) := by
  refine ⟨rfl, rfl, rfl, ?_⟩
  intro r h
  simp [displayedPortfolio, h]

/-- Witness for C10: the concrete payload-less response renders the
initial account. -/
theorem portfolio_missing_data_fallback_witness :
    (displayedPortfolio (some respNoData)).balance = 1000000 ∧
    (displayedPortfolio (some respNoData)).holdings = [] ∧
    (displayedPortfolio (some respNoData)).transactions = [] :=
  portfolio_missing_data_fallback.2.2.2 respNoData rfl
